import Mathlib

/-!
Verification of `build_cnext.py`, the c-next pre-build orchestration script
(TypeScript build-script compilation, transpiler execution, artifact staging).

The script is embedded shallowly:

* A filesystem entry is a `FsFile` (name stem, extension, mtime, content);
  a directory is a `List FsFile`.  `Path.glob` with a pattern `*.ext` on a
  directory matches exactly the top-level files carrying that extension.
* An external command invocation is abstracted by its observable outcome
  `CmdOutcome`: either the child process ran to completion with some exit
  code and captured stdout/stderr, or the process could not be started at
  all (`subprocess.run` raising an `OSError` such as `FileNotFoundError`).
* `run_command` mirrors the Python function of the same name: with
  `check=True` a non-zero exit raises `CalledProcessError`, which the
  function catches and converts to `(False, e.stdout, e.stderr)`; an
  inability to start the process is not caught there and propagates,
  modelled with `Except`.
* `mainRun` mirrors `main()`: the environment `Env` fixes the outcome of
  the two external commands and the filesystem (the `generated/` directory,
  possibly absent, and the `src/` directory), and the result records the
  process exit status, how many times each stage ran, how many files the
  staging loop copied, the final state of `src/`, and the printed lines.
  `sys.exit(1)` raises `SystemExit`, which is not an `Exception` and hence
  passes through the top-level `except Exception` handler; the handler
  catches everything else, prints the message and the traceback, and lets
  `main` return normally, so the process exits 0.
-/

namespace BuildCnext

/-- A filesystem file: name stem, extension, last-modified time, content.
The full file name is conceptually `stem ++ "." ++ ext`. -/
structure FsFile where
  stem : String
  ext : String
  mtime : Int
  content : String
deriving DecidableEq, Repr

/-- The identifying name of a file inside a directory (stem and extension). -/
def fkey (f : FsFile) : String × String := (f.stem, f.ext)

/-- `Path(d).glob ("*." ++ e)`: the top-level files of `d` with extension `e`. -/
def globExt (d : List FsFile) (e : String) : List FsFile :=
  d.filter (fun f => f.ext == e)

/-- Maximum of a list of timestamps (junk value `0` on `[]`; Python's `max`
raises there, and every use below is guarded by a non-emptiness test). -/
def listMax : List Int → Int
  | [] => 0
  | t :: ts => ts.foldl max t

/-- Minimum of a list of timestamps (junk value `0` on `[]`, as for `listMax`). -/
def listMin : List Int → Int
  | [] => 0
  | t :: ts => ts.foldl min t

/-- The `st_mtime` values of a list of files. -/
def mtimes (fs : List FsFile) : List Int := fs.map (fun f => f.mtime)

/-- `check_if_transpilation_needed()`: staleness detector over the `src/`
directory.  Sources are the `*.cn` and `*.cnm` files, generated artifacts
the `*.cpp` and `*.h` files, all in `src/`. -/
def check_if_transpilation_needed (srcDir : List FsFile) : Bool :=
  let src_files := globExt srcDir "cn" ++ globExt srcDir "cnm"
  let generated_files := globExt srcDir "cpp" ++ globExt srcDir "h"
  if src_files.isEmpty then
    false
  else if generated_files.isEmpty then
    true
  else
    decide (listMax (mtimes src_files) > listMin (mtimes generated_files))

/-- Reference staleness policy, following the spec's words over abstract
mtime sets `S` (source artifacts) and `G` (generated artifacts): false when
`S` is empty; true when `S` is non-empty and `G` is empty; otherwise true
iff `max S > min G` with strict inequality. -/
def needsRegenerationSpec (S G : List Int) : Bool :=
  if S.isEmpty then
    false
  else if G.isEmpty then
    true
  else
    decide (listMax S > listMin G)

/-- Observable outcome of trying to execute one external command. -/
inductive CmdOutcome where
  /-- The child process started and ran to completion. -/
  | completed (exitCode : Nat) (stdout stderr : String)
  /-- The process could not be started at all (`OSError` from `subprocess.run`). -/
  | startFailure (msg : String)
deriving DecidableEq, Repr

/-- A Python exception escaping `run_command`. -/
inductive PyError where
  | osError (msg : String)
deriving DecidableEq, Repr

/-- `run_command(cmd)`: returns `(success, stdout, stderr)`; a non-zero exit
is caught (`CalledProcessError`) and reported as `success = False` with the
captured streams; a start failure propagates as an exception. -/
def run_command : CmdOutcome → Except PyError (Bool × String × String)
  | .completed code out err => .ok (code == 0, out, err)
  | .startFailure msg => .error (.osError msg)

/-- The `generated/` directory: its top-level files, and the files living in
its subdirectories (which a top-level `glob ("*.ext")` never matches). -/
structure GenDir where
  top : List FsFile
  subFiles : List FsFile
deriving DecidableEq, Repr

/-- The generated artifacts the staging loop copies: top-level `*.cpp`
files of `generated/`, then its top-level `*.h` files, in loop order. -/
def matchedGenerated (g : GenDir) : List FsFile :=
  globExt g.top "cpp" ++ globExt g.top "h"

/-- `shutil.copy2(file_path, src_dir / file_path.name)`: writing file `f`
into directory `d`, overwriting any entry of the same name, preserving
content and metadata (so the destination entry equals `f`). -/
def dirInsert (d : List FsFile) (f : FsFile) : List FsFile :=
  if d.any (fun g => g.stem == f.stem && g.ext == f.ext) then
    d.map (fun g => if g.stem == f.stem && g.ext == f.ext then f else g)
  else
    d ++ [f]

/-- The staging loop: copy each file of `fs` into directory `d` in order. -/
def stageFold (d : List FsFile) (fs : List FsFile) : List FsFile :=
  fs.foldl dirInsert d

/-- Reading a file of directory `d` by name: content of the first entry
with the given stem and extension. -/
def readFile (d : List FsFile) (s e : String) : Option String :=
  (d.find? (fun g => g.stem == s && g.ext == e)).map (fun g => g.content)

/-- The environment of one run of the script: the outcome each external
command would have, and the filesystem (`generated/` may be absent). -/
structure Env where
  stage1 : CmdOutcome
  stage2 : CmdOutcome
  generated : Option GenDir
  src : List FsFile
deriving DecidableEq, Repr

/-- Observable result of one run of `main()`. -/
structure RunResult where
  exitCode : Nat
  stage1Runs : Nat
  stage2Runs : Nat
  stalenessChecks : Nat
  stagingRuns : Nat
  copies : Nat
  srcAfter : List FsFile
  output : List String
deriving DecidableEq, Repr

/-- The line `traceback.print_exc()` starts with. -/
def tracebackLine : String := "Traceback (most recent call last):"

/-- The four progress lines printed before the stage-1 command. -/
def preludeLines : List String :=
  ["🚀 DEBUG: Script starting...",
   "🚀 Starting c-next transpilation...",
   "📋 Force transpiling c-next files...",
   "📦 Compiling TypeScript build script..."]

/-- `main()`.  Stage 1 compiles the TypeScript build script, stage 2 runs
the transpiler; each failed `CommandResult` prints the captured stderr and
exits 1 (`SystemExit` is not caught by the `except Exception` handler).
On success of both, the staging block copies the top-level `*.cpp` and
`*.h` files of `generated/` into `src/` when `generated/` exists.  Any
`Exception` (here: a command start failure) is caught at top level, its
message and traceback printed, and `main` returns normally (exit 0).
`check_if_transpilation_needed` is never called. -/
def mainRun (env : Env) : RunResult :=
  match run_command env.stage1 with
  | .error (.osError msg) =>
      { exitCode := 0, stage1Runs := 1, stage2Runs := 0, stalenessChecks := 0,
        stagingRuns := 0, copies := 0, srcAfter := env.src,
        output := preludeLines ++ ["❌ ERROR: " ++ msg, tracebackLine] }
  | .ok (success1, _stdout1, stderr1) =>
    if !success1 then
      { exitCode := 1, stage1Runs := 1, stage2Runs := 0, stalenessChecks := 0,
        stagingRuns := 0, copies := 0, srcAfter := env.src,
        output := preludeLines ++ ["❌ TypeScript compilation failed: " ++ stderr1] }
    else
      match run_command env.stage2 with
      | .error (.osError msg) =>
          { exitCode := 0, stage1Runs := 1, stage2Runs := 1, stalenessChecks := 0,
            stagingRuns := 0, copies := 0, srcAfter := env.src,
            output := preludeLines ++ ["🔄 Running c-next transpilation...",
              "❌ ERROR: " ++ msg, tracebackLine] }
      | .ok (success2, stdout2, stderr2) =>
        if !success2 then
          { exitCode := 1, stage1Runs := 1, stage2Runs := 1, stalenessChecks := 0,
            stagingRuns := 0, copies := 0, srcAfter := env.src,
            output := preludeLines ++ ["🔄 Running c-next transpilation...",
              "❌ c-next transpilation failed: " ++ stderr2] }
        else
          match env.generated with
          | none =>
              { exitCode := 0, stage1Runs := 1, stage2Runs := 1, stalenessChecks := 0,
                stagingRuns := 1, copies := 0, srcAfter := env.src,
                output := preludeLines ++ ["🔄 Running c-next transpilation...",
                  stdout2, "✅ c-next transpilation completed!"] }
          | some g =>
              let files := matchedGenerated g
              { exitCode := 0, stage1Runs := 1, stage2Runs := 1, stalenessChecks := 0,
                stagingRuns := 1, copies := files.length,
                srcAfter := stageFold env.src files,
                output := preludeLines ++ ["🔄 Running c-next transpilation...",
                  stdout2, "📋 Copying generated C++ files to src directory..."]
                  ++ files.map (fun f => "   Copied " ++ f.stem ++ "." ++ f.ext ++ " to src/")
                  ++ ["✅ c-next transpilation completed!"] }

/-! ### Claim C1: the staleness detector matches the reference policy -/

/-- Claim C1: `check_if_transpilation_needed` equals the reference
staleness policy `needsRegenerationSpec`, applied to the mtimes of the
`*.cn`/`*.cnm` files (`S`) and of the `*.cpp`/`*.h` files (`G`) of `src/`;
in particular a tie `max S = min G` yields `false` (strict inequality). -/
theorem check_matches_reference (d : List FsFile) :
    check_if_transpilation_needed d
      = needsRegenerationSpec
          (mtimes (globExt d "cn" ++ globExt d "cnm"))
          (mtimes (globExt d "cpp" ++ globExt d "h")) ∧
    ((globExt d "cn" ++ globExt d "cnm") ≠ [] →
      (globExt d "cpp" ++ globExt d "h") ≠ [] →
      listMax (mtimes (globExt d "cn" ++ globExt d "cnm"))
        = listMin (mtimes (globExt d "cpp" ++ globExt d "h")) →
      check_if_transpilation_needed d = false) := by
  constructor
  · simp only [check_if_transpilation_needed, needsRegenerationSpec, mtimes]
    cases globExt d "cn" ++ globExt d "cnm" <;>
      cases globExt d "cpp" ++ globExt d "h" <;>
        simp [listMax, listMin, List.foldl_map]
  · intro hs hg htie
    simp only [check_if_transpilation_needed]
    rcases he : globExt d "cn" ++ globExt d "cnm" with _ | ⟨f, fs⟩
    · exact absurd he hs
    · rcases hge : globExt d "cpp" ++ globExt d "h" with _ | ⟨g0, gs⟩
      · exact absurd hge hg
      · rw [he, hge] at htie
        simp [he, hge, htie]

/-- Concrete instantiation of the tie clause of `check_matches_reference`:
one source file and one generated file with equal mtimes give verdict
`false`. -/
theorem check_matches_reference_witness :
    check_if_transpilation_needed
      [⟨"main", "cn", 100, "src"⟩, ⟨"main", "cpp", 100, "gen"⟩] = false :=
  (check_matches_reference
    [⟨"main", "cn", 100, "src"⟩, ⟨"main", "cpp", 100, "gen"⟩]).2
    (by decide) (by decide) (by decide)

/-! ### Claim C6: `run_command` never raises on a non-zero exit -/

/-- Claim C6: when the child process runs to completion, `run_command`
returns a `CommandResult` (never an exception): the success flag is
`exitCode == 0` — true iff the process exited with status zero — together
with the captured stdout and stderr, in the success and failure cases
alike. -/
theorem run_command_no_raise (code : Nat) (out err : String) :
    run_command (.completed code out err) = .ok (code == 0, out, err) ∧
    ((code == 0) = true ↔ code = 0) := by
  refine ⟨rfl, ?_⟩
  simp

/-! ### Claim C2: stage-1 failure exits 1 without invoking stage 2 -/

/-- Claim C2: when the stage-1 command (TypeScript compilation) yields a
failed `CommandResult` (the process completed with a non-zero exit code),
the orchestrator exits with status 1 and the stage-2 command is invoked
zero times. -/
theorem stage1_failure_exits_one (env : Env) (c : Nat) (o e : String)
    (h1 : env.stage1 = .completed c o e) (hc : c ≠ 0) :
    (mainRun env).exitCode = 1 ∧ (mainRun env).stage2Runs = 0 := by
  simp [mainRun, h1, run_command, hc]

/-- Concrete instantiation of `stage1_failure_exits_one`: the compiler
exits 2, the orchestrator exits 1 and never runs stage 2. -/
theorem stage1_failure_exits_one_witness :
    (mainRun ⟨.completed 2 "" "tsc: error", .completed 0 "" "", none, []⟩).exitCode = 1 ∧
    (mainRun ⟨.completed 2 "" "tsc: error", .completed 0 "" "", none, []⟩).stage2Runs = 0 :=
  stage1_failure_exits_one ⟨.completed 2 "" "tsc: error", .completed 0 "" "", none, []⟩
    2 "" "tsc: error" rfl (by decide)

/-! ### Claim C3: stage-2 failure exits 1 without staging -/

/-- Claim C3: when stage 1 succeeds but the stage-2 command (transpiler
execution) yields a failed `CommandResult`, the orchestrator exits with
status 1 and the artifact-staging step is never performed: the staging
block is not entered, zero files are copied and `src/` is unchanged. -/
theorem stage2_failure_exits_one (env : Env) (o1 e1 : String) (c : Nat) (o2 e2 : String)
    (h1 : env.stage1 = .completed 0 o1 e1) (h2 : env.stage2 = .completed c o2 e2)
    (hc : c ≠ 0) :
    (mainRun env).exitCode = 1 ∧ (mainRun env).stagingRuns = 0 ∧
    (mainRun env).copies = 0 ∧ (mainRun env).srcAfter = env.src := by
  simp [mainRun, h1, h2, run_command, hc]

/-- Concrete instantiation of `stage2_failure_exits_one`: the transpiler
exits 1, the orchestrator exits 1 and stages nothing. -/
theorem stage2_failure_exits_one_witness :
    (mainRun ⟨.completed 0 "" "", .completed 1 "" "parse error",
        some ⟨[⟨"blink", "cpp", 5, "x"⟩], []⟩, [⟨"blink", "cn", 3, "y"⟩]⟩).exitCode = 1 ∧
    (mainRun ⟨.completed 0 "" "", .completed 1 "" "parse error",
        some ⟨[⟨"blink", "cpp", 5, "x"⟩], []⟩, [⟨"blink", "cn", 3, "y"⟩]⟩).stagingRuns = 0 ∧
    (mainRun ⟨.completed 0 "" "", .completed 1 "" "parse error",
        some ⟨[⟨"blink", "cpp", 5, "x"⟩], []⟩, [⟨"blink", "cn", 3, "y"⟩]⟩).copies = 0 ∧
    (mainRun ⟨.completed 0 "" "", .completed 1 "" "parse error",
        some ⟨[⟨"blink", "cpp", 5, "x"⟩], []⟩, [⟨"blink", "cn", 3, "y"⟩]⟩).srcAfter
      = [⟨"blink", "cn", 3, "y"⟩] :=
  stage2_failure_exits_one
    ⟨.completed 0 "" "", .completed 1 "" "parse error",
      some ⟨[⟨"blink", "cpp", 5, "x"⟩], []⟩, [⟨"blink", "cn", 3, "y"⟩]⟩
    "" "" 1 "" "parse error" rfl rfl (by decide)

/-! ### Claim C7: the staleness detector is dead code -/

/-- Claim C7: `main` never consults `check_if_transpilation_needed`
(zero calls on every run), always invokes stage 1, the stage invocation
counts do not depend on the filesystem (source or generated timestamps),
and whenever stage 1 reports success the stage-2 command is invoked. -/
theorem staleness_detector_never_consulted (s1 s2 : CmdOutcome)
    (gen gen' : Option GenDir) (src src' : List FsFile) :
    (mainRun ⟨s1, s2, gen, src⟩).stalenessChecks = 0 ∧
    (mainRun ⟨s1, s2, gen, src⟩).stage1Runs = 1 ∧
    (mainRun ⟨s1, s2, gen, src⟩).stage1Runs = (mainRun ⟨s1, s2, gen', src'⟩).stage1Runs ∧
    (mainRun ⟨s1, s2, gen, src⟩).stage2Runs = (mainRun ⟨s1, s2, gen', src'⟩).stage2Runs ∧
    (∀ o e : String, s1 = .completed 0 o e → (mainRun ⟨s1, s2, gen, src⟩).stage2Runs = 1) := by
  cases s1 with
  | startFailure m => simp [mainRun, run_command]
  | completed c1 o1 e1 =>
    cases s2 with
    | startFailure m2 =>
      by_cases h : c1 = 0 <;> simp [mainRun, run_command, h]
    | completed c2 o2 e2 =>
      by_cases h : c1 = 0 <;> by_cases h2 : c2 = 0 <;>
        cases gen <;> cases gen' <;> simp [mainRun, run_command, h, h2]

/-- Concrete instantiation of `staleness_detector_never_consulted`, with a
stale-looking filesystem (newer source than generated artifact): the
detector is still never called and both stages run. -/
theorem staleness_detector_never_consulted_witness :
    (mainRun ⟨.completed 0 "" "", .completed 0 "ok" "", none,
        [⟨"blink", "cn", 100, "s"⟩, ⟨"blink", "cpp", 50, "g"⟩]⟩).stalenessChecks = 0 ∧
    (mainRun ⟨.completed 0 "" "", .completed 0 "ok" "", none,
        [⟨"blink", "cn", 100, "s"⟩, ⟨"blink", "cpp", 50, "g"⟩]⟩).stage2Runs = 1 :=
  ⟨(staleness_detector_never_consulted (.completed 0 "" "") (.completed 0 "ok" "")
      none none [⟨"blink", "cn", 100, "s"⟩, ⟨"blink", "cpp", 50, "g"⟩] []).1,
   (staleness_detector_never_consulted (.completed 0 "" "") (.completed 0 "ok" "")
      none none [⟨"blink", "cn", 100, "s"⟩, ⟨"blink", "cpp", 50, "g"⟩] []).2.2.2.2
      "" "" rfl⟩

/-! ### Claim C4: unexpected exceptions are swallowed with exit status 0 -/

/-- Claim C4: when an unexpected exception is raised during orchestration
(in this model, an `OSError` from either external-command invocation —
the explicit exit-1 paths raise `SystemExit`, which is not an `Exception`),
it is caught at the top level, its message and the traceback are printed,
and the process still exits with status 0. -/
theorem unexpected_exception_swallowed (env : Env) (msg : String)
    (h : env.stage1 = .startFailure msg ∨
      ∃ o e, env.stage1 = .completed 0 o e ∧ env.stage2 = .startFailure msg) :
    (mainRun env).exitCode = 0 ∧
    ("❌ ERROR: " ++ msg) ∈ (mainRun env).output ∧
    tracebackLine ∈ (mainRun env).output := by
  rcases h with h1 | ⟨o, e, h1, h2⟩
  · simp [mainRun, h1, run_command, preludeLines]
  · simp [mainRun, h1, h2, run_command, preludeLines]

/-- Concrete instantiation of `unexpected_exception_swallowed`: `node` is
missing at stage 2, the error line and traceback are printed, exit 0. -/
theorem unexpected_exception_swallowed_witness :
    (mainRun ⟨.completed 0 "" "", .startFailure "No such file or directory: node",
        none, []⟩).exitCode = 0 ∧
    ("❌ ERROR: " ++ "No such file or directory: node")
      ∈ (mainRun ⟨.completed 0 "" "", .startFailure "No such file or directory: node",
          none, []⟩).output ∧
    tracebackLine ∈ (mainRun ⟨.completed 0 "" "",
        .startFailure "No such file or directory: node", none, []⟩).output :=
  unexpected_exception_swallowed
    ⟨.completed 0 "" "", .startFailure "No such file or directory: node", none, []⟩
    "No such file or directory: node" (Or.inr ⟨"", "", rfl, rfl⟩)

/-! ### Claim C5: start failures — corrected

The claim's first half holds: a start failure is not converted into a
recoverable failed `CommandResult`; `run_command` lets the exception
propagate.  Its second half — "the process does not exit with status 0" —
is false on the code: the exception reaches the top-level
`except Exception` handler of `main`, which prints it and returns
normally, so the process exits 0. -/

/-- Counterexample to claim C5 as stated: with the stage-1 process unable
to start (`npx` missing), the process exits with status 0, contradicting
"the process does not exit with status 0". -/
theorem start_failure_exit_zero_counterexample :
    (mainRun ⟨.startFailure "No such file or directory: npx",
        .completed 0 "" "", none, []⟩).exitCode = 0 := rfl

/-- Claim C5 (amended): when the external process cannot be started, the
condition is not converted into a recoverable failed `CommandResult` —
`run_command` propagates it as an exception — but the top-level handler
catches it and the process exits with status 0. -/
theorem start_failure_propagates_then_swallowed (env : Env) (msg : String)
    (h : env.stage1 = .startFailure msg ∨
      ∃ o e, env.stage1 = .completed 0 o e ∧ env.stage2 = .startFailure msg) :
    run_command (.startFailure msg) = .error (.osError msg) ∧
    (mainRun env).exitCode = 0 := by
  refine ⟨rfl, ?_⟩
  rcases h with h1 | ⟨o, e, h1, h2⟩
  · simp [mainRun, h1, run_command]
  · simp [mainRun, h1, h2, run_command]

/-- Concrete instantiation of `start_failure_propagates_then_swallowed`:
`npx` missing at stage 1. -/
theorem start_failure_propagates_then_swallowed_witness :
    run_command (.startFailure "No such file or directory: npx")
      = .error (.osError "No such file or directory: npx") ∧
    (mainRun ⟨.startFailure "No such file or directory: npx",
        .completed 0 "" "", none, []⟩).exitCode = 0 :=
  start_failure_propagates_then_swallowed
    ⟨.startFailure "No such file or directory: npx", .completed 0 "" "", none, []⟩
    "No such file or directory: npx" (Or.inl rfl)

/-! ### Staging lemmas: `dirInsert` and `stageFold` -/

/-- Looking a name up in a directory starting with a matching entry. -/
lemma find_cons_pos (s e : String) (a : FsFile) (l : List FsFile)
    (h : (a.stem == s && a.ext == e) = true) :
    (a :: l).find? (fun g => g.stem == s && g.ext == e) = some a := by
  simp [List.find?_cons, h]

/-- Looking a name up in a directory starting with a non-matching entry. -/
lemma find_cons_neg (s e : String) (a : FsFile) (l : List FsFile)
    (h : (a.stem == s && a.ext == e) = false) :
    (a :: l).find? (fun g => g.stem == s && g.ext == e)
      = l.find? (fun g => g.stem == s && g.ext == e) := by
  simp [List.find?_cons, h]

/-- A file matches its own name. -/
lemma self_match (f : FsFile) : (f.stem == f.stem && f.ext == f.ext) = true := by
  simp

/-- Inserting `f` after a match was found: the first entry matching `f`'s
name in the rewritten directory is `f` itself. -/
lemma find_map_replace_self (d : List FsFile) (f : FsFile) :
    d.any (fun g => g.stem == f.stem && g.ext == f.ext) = true →
    (d.map (fun g => if g.stem == f.stem && g.ext == f.ext then f else g)).find?
        (fun g => g.stem == f.stem && g.ext == f.ext) = some f := by
  induction d with
  | nil => simp
  | cons a d ih =>
    intro h
    simp only [List.map_cons]
    cases hp : (a.stem == f.stem && a.ext == f.ext) with
    | true =>
      rw [if_pos (show (true : Bool) = true from rfl),
        find_cons_pos f.stem f.ext f _ (self_match f)]
    | false =>
      have hd : (d.any fun g => g.stem == f.stem && g.ext == f.ext) = true := by
        simp only [List.any_cons, Bool.or_eq_true] at h
        exact h.resolve_left (by simp [hp])
      rw [if_neg Bool.false_ne_true, find_cons_neg f.stem f.ext a _ hp]
      exact ih hd

/-- Appending `f` to a directory with no entry matching `f`'s name: the
first matching entry is the appended `f`. -/
lemma find_append_self (d : List FsFile) (f : FsFile) :
    d.any (fun g => g.stem == f.stem && g.ext == f.ext) = false →
    (d ++ [f]).find? (fun g => g.stem == f.stem && g.ext == f.ext) = some f := by
  induction d with
  | nil =>
    intro _
    rw [List.nil_append, find_cons_pos f.stem f.ext f _ (self_match f)]
  | cons a d ih =>
    intro h
    simp only [List.any_cons, Bool.or_eq_false_iff] at h
    rw [List.cons_append, find_cons_neg f.stem f.ext a _ h.1]
    exact ih h.2

/-- After writing `f` into `d`, reading `f`'s name yields `f`'s content. -/
lemma readFile_dirInsert_self (d : List FsFile) (f : FsFile) :
    readFile (dirInsert d f) f.stem f.ext = some f.content := by
  unfold readFile dirInsert
  by_cases h : d.any (fun g => g.stem == f.stem && g.ext == f.ext) = true
  · rw [if_pos h, find_map_replace_self d f h]
    rfl
  · rw [if_neg h, find_append_self d f (by simpa using h)]
    rfl

/-- Writing `f` into `d` does not change the result of reading any name
other than `f`'s. -/
lemma find_dirInsert_other (d : List FsFile) (f : FsFile) (s e : String)
    (h : ¬(f.stem = s ∧ f.ext = e)) :
    (dirInsert d f).find? (fun g => g.stem == s && g.ext == e)
      = d.find? (fun g => g.stem == s && g.ext == e) := by
  have hf : (f.stem == s && f.ext == e) = false := by
    cases hb : (f.stem == s && f.ext == e) with
    | false => rfl
    | true => exact absurd (by simpa using hb) h
  unfold dirInsert
  by_cases ha : (d.any fun g => g.stem == f.stem && g.ext == f.ext) = true
  · rw [if_pos ha]
    clear ha
    induction d with
    | nil => rfl
    | cons a d ih =>
      simp only [List.map_cons]
      cases hp : (a.stem == f.stem && a.ext == f.ext) with
      | true =>
        have hkey : a.stem = f.stem ∧ a.ext = f.ext := by simpa using hp
        have hasame : (a.stem == s && a.ext == e) = false := by
          rw [hkey.1, hkey.2]; exact hf
        rw [if_pos (show (true : Bool) = true from rfl), find_cons_neg s e f _ hf,
          find_cons_neg s e a _ hasame, ih]
      | false =>
        rw [if_neg Bool.false_ne_true]
        cases hq : (a.stem == s && a.ext == e) with
        | true => rw [find_cons_pos s e a _ hq, find_cons_pos s e a _ hq]
        | false => rw [find_cons_neg s e a _ hq, find_cons_neg s e a _ hq, ih]
  · rw [if_neg ha]
    clear ha
    induction d with
    | nil =>
      rw [List.nil_append, find_cons_neg s e f _ hf]
    | cons a d ih =>
      rw [List.cons_append]
      cases hq : (a.stem == s && a.ext == e) with
      | true => rw [find_cons_pos s e a _ hq, find_cons_pos s e a _ hq]
      | false => rw [find_cons_neg s e a _ hq, find_cons_neg s e a _ hq, ih]

/-- `readFile` version of `find_dirInsert_other`. -/
lemma readFile_dirInsert_other (d : List FsFile) (f : FsFile) (s e : String)
    (h : ¬(f.stem = s ∧ f.ext = e)) :
    readFile (dirInsert d f) s e = readFile d s e := by
  unfold readFile
  rw [find_dirInsert_other d f s e h]

/-- Staging files none of which carries the queried name leaves that
name's content unchanged. -/
lemma readFile_stageFold_other (fs : List FsFile) (d : List FsFile) (s e : String)
    (h : ∀ g ∈ fs, ¬(g.stem = s ∧ g.ext = e)) :
    readFile (stageFold d fs) s e = readFile d s e := by
  induction fs generalizing d with
  | nil => rfl
  | cons f fs ih =>
    have hstep : stageFold d (f :: fs) = stageFold (dirInsert d f) fs := rfl
    rw [hstep, ih (dirInsert d f) (fun g hg => h g (by simp [hg])),
      readFile_dirInsert_other d f s e (h f (by simp))]

/-- When the staged files have pairwise distinct names, each of them can be
read back from the staged directory with its own content. -/
lemma readFile_stageFold_mem (fs : List FsFile) (hnd : (fs.map fkey).Nodup)
    (f : FsFile) (hf : f ∈ fs) (d : List FsFile) :
    readFile (stageFold d fs) f.stem f.ext = some f.content := by
  induction fs generalizing d with
  | nil => cases hf
  | cons a fs ih =>
    have hstep : stageFold d (a :: fs) = stageFold (dirInsert d a) fs := rfl
    rw [List.map_cons, List.nodup_cons] at hnd
    rcases List.mem_cons.mp hf with rfl | hmem
    · have hother : ∀ g ∈ fs, ¬(g.stem = f.stem ∧ g.ext = f.ext) := by
        intro g hg hkey
        exact hnd.1 (by
          rw [show fkey f = fkey g from by simp [fkey, hkey.1, hkey.2]]
          exact List.mem_map_of_mem fkey hg)
      rw [hstep, readFile_stageFold_other fs (dirInsert d f) f.stem f.ext hother,
        readFile_dirInsert_self]
    · rw [hstep]
      exact ih hnd.2 hmem (dirInsert d a)

/-! ### Claim C8: successful runs stage exactly the matching files -/

/-- Claim C8: when both stages succeed, if `generated/` is absent the
staging step is skipped (zero copies) and the process exits 0; if
`generated/` exists with `N` top-level `*.cpp`/`*.h` files (of pairwise
distinct names, as in a real directory), exactly `N` files are copied and
each matching file can be read back from `src/` with content identical to
its source in `generated/`, and the process exits 0. -/
theorem success_staging_copies_all (env : Env) (o1 e1 o2 e2 : String)
    (h1 : env.stage1 = .completed 0 o1 e1) (h2 : env.stage2 = .completed 0 o2 e2) :
    (env.generated = none →
      (mainRun env).exitCode = 0 ∧ (mainRun env).copies = 0 ∧
      (mainRun env).srcAfter = env.src) ∧
    (∀ g, env.generated = some g → ((matchedGenerated g).map fkey).Nodup →
      (mainRun env).exitCode = 0 ∧
      (mainRun env).copies = (matchedGenerated g).length ∧
      ∀ f ∈ matchedGenerated g,
        readFile (mainRun env).srcAfter f.stem f.ext = some f.content) := by
  constructor
  · intro hg
    simp [mainRun, h1, h2, run_command, hg]
  · intro g hg hnd
    refine ⟨by simp [mainRun, h1, h2, run_command, hg], ?_, ?_⟩
    · simp [mainRun, h1, h2, run_command, hg]
    · intro f hf
      have hsrc : (mainRun env).srcAfter = stageFold env.src (matchedGenerated g) := by
        simp [mainRun, h1, h2, run_command, hg]
      rw [hsrc]
      exact readFile_stageFold_mem (matchedGenerated g) hnd f hf env.src

/-- Concrete instantiation of `success_staging_copies_all`: `generated/`
holds `blink.cpp` and `blink.h`; both land in `src/` with their content,
two copies, exit 0. -/
theorem success_staging_copies_all_witness :
    (mainRun ⟨.completed 0 "" "", .completed 0 "done" "",
        some ⟨[⟨"blink", "cpp", 7, "cpp-code"⟩, ⟨"blink", "h", 8, "h-code"⟩], []⟩,
        [⟨"blink", "cn", 3, "cn-code"⟩]⟩).copies
      = (matchedGenerated ⟨[⟨"blink", "cpp", 7, "cpp-code"⟩, ⟨"blink", "h", 8, "h-code"⟩], []⟩).length ∧
    readFile (mainRun ⟨.completed 0 "" "", .completed 0 "done" "",
        some ⟨[⟨"blink", "cpp", 7, "cpp-code"⟩, ⟨"blink", "h", 8, "h-code"⟩], []⟩,
        [⟨"blink", "cn", 3, "cn-code"⟩]⟩).srcAfter "blink" "cpp" = some "cpp-code" :=
  ⟨((success_staging_copies_all
      ⟨.completed 0 "" "", .completed 0 "done" "",
        some ⟨[⟨"blink", "cpp", 7, "cpp-code"⟩, ⟨"blink", "h", 8, "h-code"⟩], []⟩,
        [⟨"blink", "cn", 3, "cn-code"⟩]⟩ "" "" "done" "" rfl rfl).2
      ⟨[⟨"blink", "cpp", 7, "cpp-code"⟩, ⟨"blink", "h", 8, "h-code"⟩], []⟩ rfl
      (by decide)).2.1,
   ((success_staging_copies_all
      ⟨.completed 0 "" "", .completed 0 "done" "",
        some ⟨[⟨"blink", "cpp", 7, "cpp-code"⟩, ⟨"blink", "h", 8, "h-code"⟩], []⟩,
        [⟨"blink", "cn", 3, "cn-code"⟩]⟩ "" "" "done" "" rfl rfl).2
      ⟨[⟨"blink", "cpp", 7, "cpp-code"⟩, ⟨"blink", "h", 8, "h-code"⟩], []⟩ rfl
      (by decide)).2.2
      ⟨"blink", "cpp", 7, "cpp-code"⟩ (by decide)⟩

/-! ### Idempotence of staging -/

/-- Directory `d` already holds file `f`: some entry matches `f`'s name,
and every entry matching `f`'s name is `f` itself. -/
def AllAs (d : List FsFile) (f : FsFile) : Prop :=
  (∃ g ∈ d, g.stem = f.stem ∧ g.ext = f.ext) ∧
  (∀ g ∈ d, g.stem = f.stem ∧ g.ext = f.ext → g = f)

/-- The `any` test of `dirInsert`, in propositional form. -/
lemma any_match_iff (d : List FsFile) (f : FsFile) :
    (d.any fun g => g.stem == f.stem && g.ext == f.ext) = true ↔
    ∃ g ∈ d, g.stem = f.stem ∧ g.ext = f.ext := by
  simp [List.any_eq_true]

/-- A map leaving every element in place is the identity. -/
lemma map_self_of (d : List FsFile) (h : FsFile → FsFile)
    (hh : ∀ g ∈ d, h g = g) : d.map h = d := by
  induction d with
  | nil => rfl
  | cons a d ih =>
    rw [List.map_cons, hh a (List.mem_cons_self a d),
      ih (fun g hg => hh g (List.mem_cons_of_mem a hg))]

/-- Re-copying a file already present unchanged leaves the directory
unchanged. -/
lemma dirInsert_of_allAs (d : List FsFile) (f : FsFile) (h : AllAs d f) :
    dirInsert d f = d := by
  unfold dirInsert
  rw [if_pos ((any_match_iff d f).mpr h.1)]
  apply map_self_of
  intro g hg
  show (if (g.stem == f.stem && g.ext == f.ext) = true then f else g) = g
  by_cases hm : (g.stem == f.stem && g.ext == f.ext) = true
  · rw [if_pos hm]
    exact (h.2 g hg (by simpa using hm)).symm
  · rw [if_neg hm]

/-- After copying `f` into `d`, the directory holds exactly `f` under
`f`'s name. -/
lemma allAs_dirInsert_self (d : List FsFile) (f : FsFile) :
    AllAs (dirInsert d f) f := by
  unfold dirInsert
  by_cases ha : (d.any fun g => g.stem == f.stem && g.ext == f.ext) = true
  · rw [if_pos ha]
    constructor
    · obtain ⟨g, hg, hkey⟩ := (any_match_iff d f).mp ha
      refine ⟨f, ?_, rfl, rfl⟩
      have hval : (if (g.stem == f.stem && g.ext == f.ext) = true then f else g) = f :=
        if_pos (by simp [hkey.1, hkey.2])
      exact List.mem_map.mpr ⟨g, hg, hval⟩
    · intro gr hgr hkeyr
      obtain ⟨g, hg, hgeq⟩ := List.mem_map.mp hgr
      have hgeq2 : (if (g.stem == f.stem && g.ext == f.ext) = true then f else g) = gr := hgeq
      by_cases hm : (g.stem == f.stem && g.ext == f.ext) = true
      · rw [if_pos hm] at hgeq2
        exact hgeq2.symm
      · rw [if_neg hm] at hgeq2
        rw [← hgeq2] at hkeyr
        exact absurd (show (g.stem == f.stem && g.ext == f.ext) = true by
          simp [hkeyr.1, hkeyr.2]) hm
  · rw [if_neg ha]
    constructor
    · exact ⟨f, List.mem_append.mpr (Or.inr (by simp)), rfl, rfl⟩
    · intro g hg hkey
      rcases List.mem_append.mp hg with hgd | hgf
      · exact absurd ((any_match_iff d f).mpr ⟨g, hgd, hkey⟩) ha
      · simpa using hgf

/-- Copying a file of a different name preserves `AllAs`. -/
lemma allAs_dirInsert_other (d : List FsFile) (f x : FsFile)
    (hne : ¬(x.stem = f.stem ∧ x.ext = f.ext)) (h : AllAs d f) :
    AllAs (dirInsert d x) f := by
  obtain ⟨⟨g0, hg0, hkey0⟩, hall⟩ := h
  unfold dirInsert
  by_cases ha : (d.any fun g => g.stem == x.stem && g.ext == x.ext) = true
  · rw [if_pos ha]
    constructor
    · refine ⟨g0, ?_, hkey0⟩
      have hm : ¬(g0.stem == x.stem && g0.ext == x.ext) = true := by
        intro hc
        have hc2 : g0.stem = x.stem ∧ g0.ext = x.ext := by simpa using hc
        exact hne ⟨hc2.1.symm.trans hkey0.1, hc2.2.symm.trans hkey0.2⟩
      have hval : (if (g0.stem == x.stem && g0.ext == x.ext) = true then x else g0) = g0 :=
        if_neg hm
      exact List.mem_map.mpr ⟨g0, hg0, hval⟩
    · intro gr hgr hkeyr
      obtain ⟨g, hg, hgeq⟩ := List.mem_map.mp hgr
      have hgeq2 : (if (g.stem == x.stem && g.ext == x.ext) = true then x else g) = gr := hgeq
      by_cases hm : (g.stem == x.stem && g.ext == x.ext) = true
      · rw [if_pos hm] at hgeq2
        rw [← hgeq2] at hkeyr
        exact absurd hkeyr hne
      · rw [if_neg hm] at hgeq2
        have hgr2 : gr = g := hgeq2.symm
        rw [hgr2]
        exact hall g hg (hgr2 ▸ hkeyr)
  · rw [if_neg ha]
    constructor
    · exact ⟨g0, List.mem_append.mpr (Or.inl hg0), hkey0⟩
    · intro g hg hkey
      rcases List.mem_append.mp hg with hgd | hgx
      · exact hall g hgd hkey
      · have hgx2 : g = x := by simpa using hgx
        rw [hgx2] at hkey
        exact absurd hkey hne

/-- Staging files of other names preserves `AllAs`. -/
lemma allAs_stageFold_other (fs : List FsFile) (d : List FsFile) (f : FsFile)
    (h : AllAs d f) (hfs : ∀ g ∈ fs, ¬(g.stem = f.stem ∧ g.ext = f.ext)) :
    AllAs (stageFold d fs) f := by
  induction fs generalizing d with
  | nil => exact h
  | cons a fs ih =>
    exact ih (dirInsert d a)
      (allAs_dirInsert_other d f a (hfs a (by simp)) h)
      (fun g hg => hfs g (by simp [hg]))

/-- After staging a distinctly-named file list, each staged file is held
exactly. -/
lemma allAs_stageFold_mem (fs : List FsFile) (hnd : (fs.map fkey).Nodup)
    (f : FsFile) (hf : f ∈ fs) (d : List FsFile) :
    AllAs (stageFold d fs) f := by
  induction fs generalizing d with
  | nil => cases hf
  | cons a fs ih =>
    rw [List.map_cons, List.nodup_cons] at hnd
    rcases List.mem_cons.mp hf with rfl | hmem
    · have hother : ∀ g ∈ fs, ¬(g.stem = f.stem ∧ g.ext = f.ext) := by
        intro g hg hkey
        exact hnd.1 (by
          rw [show fkey f = fkey g from by simp [fkey, hkey.1, hkey.2]]
          exact List.mem_map_of_mem fkey hg)
      exact allAs_stageFold_other fs (dirInsert d f) f (allAs_dirInsert_self d f) hother
    · exact ih hnd.2 hmem (dirInsert d a)

/-- Staging files each already held exactly changes nothing. -/
lemma stageFold_fixed (fs : List FsFile) (d : List FsFile)
    (h : ∀ f ∈ fs, AllAs d f) : stageFold d fs = d := by
  induction fs with
  | nil => rfl
  | cons a fs ih =>
    have hstep : stageFold d (a :: fs) = stageFold (dirInsert d a) fs := rfl
    rw [hstep, dirInsert_of_allAs d a (h a (by simp))]
    exact ih (fun f hf => h f (by simp [hf]))

/-- Running the staging loop twice is the same as running it once, for any
file list with pairwise distinct names. -/
lemma stageFold_idem (d : List FsFile) (fs : List FsFile)
    (hnd : (fs.map fkey).Nodup) :
    stageFold (stageFold d fs) fs = stageFold d fs :=
  stageFold_fixed fs (stageFold d fs)
    (fun f hf => allAs_stageFold_mem fs hnd f hf d)

/-- The `src/` directory a completed run leaves behind, as a function of
the filesystem alone. -/
def stagedSrc (env : Env) : List FsFile :=
  match env.generated with
  | none => env.src
  | some g => stageFold env.src (matchedGenerated g)

/-- Every run leaves `src/` either untouched or fully staged. -/
lemma mainRun_srcAfter (env : Env) :
    (mainRun env).srcAfter = env.src ∨ (mainRun env).srcAfter = stagedSrc env := by
  obtain ⟨s1, s2, gen, src⟩ := env
  cases s1 with
  | startFailure m => left; simp [mainRun, run_command]
  | completed c1 o1 e1 =>
    by_cases h1 : c1 = 0
    · cases s2 with
      | startFailure m2 => left; simp [mainRun, run_command, h1]
      | completed c2 o2 e2 =>
        by_cases h2 : c2 = 0
        · cases gen with
          | none => left; simp [mainRun, run_command, h1, h2]
          | some g => right; simp [mainRun, run_command, h1, h2, stagedSrc]
        · left; simp [mainRun, run_command, h1, h2]
    · left; simp [mainRun, run_command, h1]

/-! ### Claim C9: staging is idempotent -/

/-- Claim C9: copying a generated file whose name already exists in the
target overwrites it (`readFile` returns the copied content), and running
the full pipeline a second time on the `src/` directory the first run left
behind — inputs otherwise unchanged — produces the same `src/` state as
running it once (assuming, as on a real filesystem, distinct names among
the matched generated files). -/
theorem staging_idempotent (env : Env) (d : List FsFile) (x : FsFile)
    (hg : ∀ g, env.generated = some g → ((matchedGenerated g).map fkey).Nodup) :
    (mainRun { env with src := (mainRun env).srcAfter }).srcAfter
      = (mainRun env).srcAfter ∧
    readFile (dirInsert d x) x.stem x.ext = some x.content := by
  refine ⟨?_, readFile_dirInsert_self d x⟩
  obtain ⟨s1, s2, gen, src⟩ := env
  rcases mainRun_srcAfter ⟨s1, s2, gen, src⟩ with h1 | h1
  · rw [h1]
    exact h1
  · rcases mainRun_srcAfter ⟨s1, s2, gen, (mainRun ⟨s1, s2, gen, src⟩).srcAfter⟩
      with h2 | h2
    · exact h2
    · rw [h2]
      cases gen with
      | none => simp [stagedSrc]
      | some g =>
        have hnd := hg g rfl
        rw [h1]
        show stageFold (stagedSrc ⟨s1, s2, some g, src⟩) (matchedGenerated g)
          = stagedSrc ⟨s1, s2, some g, src⟩
        show stageFold (stageFold src (matchedGenerated g)) (matchedGenerated g)
          = stageFold src (matchedGenerated g)
        exact stageFold_idem src (matchedGenerated g) hnd

/-- Concrete instantiation of `staging_idempotent`: one generated file,
re-running the pipeline on the staged `src/` reproduces it; overwriting a
same-named file yields the new content. -/
theorem staging_idempotent_witness :
    (mainRun { (⟨.completed 0 "" "", .completed 0 "" "",
        some ⟨[⟨"blink", "cpp", 7, "new"⟩], []⟩, [⟨"blink", "cpp", 1, "old"⟩]⟩ : Env)
        with src := (mainRun ⟨.completed 0 "" "", .completed 0 "" "",
          some ⟨[⟨"blink", "cpp", 7, "new"⟩], []⟩,
          [⟨"blink", "cpp", 1, "old"⟩]⟩).srcAfter }).srcAfter
      = (mainRun ⟨.completed 0 "" "", .completed 0 "" "",
          some ⟨[⟨"blink", "cpp", 7, "new"⟩], []⟩,
          [⟨"blink", "cpp", 1, "old"⟩]⟩).srcAfter ∧
    readFile (dirInsert [⟨"blink", "cpp", 1, "old"⟩] ⟨"blink", "cpp", 7, "new"⟩)
        "blink" "cpp" = some "new" :=
  staging_idempotent
    ⟨.completed 0 "" "", .completed 0 "" "",
      some ⟨[⟨"blink", "cpp", 7, "new"⟩], []⟩, [⟨"blink", "cpp", 1, "old"⟩]⟩
    [⟨"blink", "cpp", 1, "old"⟩] ⟨"blink", "cpp", 7, "new"⟩
    (by
      intro g hgg
      injection hgg with hgg
      subst hgg
      decide)

/-! ### Frame lemmas for staging -/

/-- Every entry after one copy was already present or is the copied file. -/
lemma mem_dirInsert (x : FsFile) (d : List FsFile) (f : FsFile)
    (hx : x ∈ dirInsert d f) : x ∈ d ∨ x = f := by
  unfold dirInsert at hx
  by_cases ha : (d.any fun g => g.stem == f.stem && g.ext == f.ext) = true
  · rw [if_pos ha] at hx
    obtain ⟨g, hg, hgeq⟩ := List.mem_map.mp hx
    have hgeq2 : (if (g.stem == f.stem && g.ext == f.ext) = true then f else g) = x := hgeq
    by_cases hm : (g.stem == f.stem && g.ext == f.ext) = true
    · rw [if_pos hm] at hgeq2
      exact Or.inr hgeq2.symm
    · rw [if_neg hm] at hgeq2
      rw [← hgeq2]
      exact Or.inl hg
  · rw [if_neg ha] at hx
    rcases List.mem_append.mp hx with h | h
    · exact Or.inl h
    · exact Or.inr (by simpa using h)

/-- Every entry after staging was already present or is one of the staged
files. -/
lemma mem_stageFold (fs : List FsFile) (x : FsFile) (d : List FsFile)
    (hx : x ∈ stageFold d fs) : x ∈ d ∨ x ∈ fs := by
  induction fs generalizing d with
  | nil => exact Or.inl hx
  | cons a fs ih =>
    rcases ih (dirInsert d a) hx with h | h
    · rcases mem_dirInsert x d a h with hd | hf
      · exact Or.inl hd
      · exact Or.inr (by rw [hf]; exact List.mem_cons_self a fs)
    · exact Or.inr (List.mem_cons_of_mem a h)

/-- A file whose name differs from the copied one survives untouched. -/
lemma mem_dirInsert_of_ne (x : FsFile) (d : List FsFile) (f : FsFile)
    (hne : ¬(x.stem = f.stem ∧ x.ext = f.ext)) (hx : x ∈ d) :
    x ∈ dirInsert d f := by
  unfold dirInsert
  by_cases ha : (d.any fun g => g.stem == f.stem && g.ext == f.ext) = true
  · rw [if_pos ha]
    have hval : (if (x.stem == f.stem && x.ext == f.ext) = true then f else x) = x := by
      rw [if_neg]
      intro hc
      exact hne (by simpa using hc)
    exact List.mem_map.mpr ⟨x, hx, hval⟩
  · rw [if_neg ha]
    exact List.mem_append.mpr (Or.inl hx)

/-- A file whose name matches none of the staged files survives staging
untouched. -/
lemma mem_stageFold_of_ne (fs : List FsFile) (x : FsFile) (d : List FsFile)
    (h : ∀ f ∈ fs, ¬(x.stem = f.stem ∧ x.ext = f.ext)) (hx : x ∈ d) :
    x ∈ stageFold d fs := by
  induction fs generalizing d with
  | nil => exact hx
  | cons a fs ih =>
    exact ih (dirInsert d a) (fun f hf => h f (by simp [hf]))
      (mem_dirInsert_of_ne x d a (h a (by simp)) hx)

/-- Copying never deletes a name: each name present before is present
after one copy. -/
lemma key_surv_dirInsert (x : FsFile) (d : List FsFile) (f : FsFile)
    (hx : x ∈ d) :
    ∃ y ∈ dirInsert d f, y.stem = x.stem ∧ y.ext = x.ext := by
  unfold dirInsert
  by_cases ha : (d.any fun g => g.stem == f.stem && g.ext == f.ext) = true
  · rw [if_pos ha]
    by_cases hm : (x.stem == f.stem && x.ext == f.ext) = true
    · have hkey : x.stem = f.stem ∧ x.ext = f.ext := by simpa using hm
      refine ⟨f, ?_, hkey.1.symm, hkey.2.symm⟩
      have hval : (if (x.stem == f.stem && x.ext == f.ext) = true then f else x) = f :=
        if_pos hm
      exact List.mem_map.mpr ⟨x, hx, hval⟩
    · refine ⟨x, ?_, rfl, rfl⟩
      have hval : (if (x.stem == f.stem && x.ext == f.ext) = true then f else x) = x :=
        if_neg hm
      exact List.mem_map.mpr ⟨x, hx, hval⟩
  · rw [if_neg ha]
    exact ⟨x, List.mem_append.mpr (Or.inl hx), rfl, rfl⟩

/-- Staging never deletes a name: each name present before is present
after the whole loop. -/
lemma key_surv_stageFold (fs : List FsFile) (x : FsFile) (d : List FsFile)
    (hx : x ∈ d) :
    ∃ y ∈ stageFold d fs, y.stem = x.stem ∧ y.ext = x.ext := by
  induction fs generalizing d x with
  | nil => exact ⟨x, hx, rfl, rfl⟩
  | cons a fs ih =>
    obtain ⟨y, hy, hk1, hk2⟩ := key_surv_dirInsert x d a hx
    obtain ⟨z, hz, hz1, hz2⟩ := ih y (dirInsert d a) hy
    exact ⟨z, hz, hz1.trans hk1, hz2.trans hk2⟩

/-! ### Claim C10: staging writes only generated top-level names -/

/-- Claim C10: on every run, every file of the final `src/` is either an
original `src/` entry (unchanged content) or one of the top-level
`*.cpp`/`*.h` files of `generated/`; every original `src/` file whose name
matches no such generated file — in particular the `*.cn`/`*.cnm` inputs,
and anything only present in subdirectories of `generated/` — is still
there with unchanged content; and no name present in `src/` before is
deleted. -/
theorem staging_frame (env : Env) :
    (∀ x ∈ (mainRun env).srcAfter,
      x ∈ env.src ∨ ∃ g, env.generated = some g ∧ x ∈ matchedGenerated g ∧ x ∈ g.top) ∧
    (∀ x ∈ env.src,
      (∀ g, env.generated = some g → (x.stem, x.ext) ∉ (matchedGenerated g).map fkey) →
      x ∈ (mainRun env).srcAfter) ∧
    (∀ x ∈ env.src,
      ∃ y ∈ (mainRun env).srcAfter, y.stem = x.stem ∧ y.ext = x.ext) := by
  rcases mainRun_srcAfter env with h | h
  · rw [h]
    exact ⟨fun x hx => Or.inl hx, fun x hx _ => hx, fun x hx => ⟨x, hx, rfl, rfl⟩⟩
  · rw [h]
    cases hgen : env.generated with
    | none =>
      have hss : stagedSrc env = env.src := by simp [stagedSrc, hgen]
      rw [hss]
      exact ⟨fun x hx => Or.inl hx, fun x hx _ => hx, fun x hx => ⟨x, hx, rfl, rfl⟩⟩
    | some g =>
      have hss : stagedSrc env = stageFold env.src (matchedGenerated g) := by
        simp [stagedSrc, hgen]
      rw [hss]
      refine ⟨?_, ?_, ?_⟩
      · intro x hx
        rcases mem_stageFold (matchedGenerated g) x env.src hx with hsrc | hgenm
        · exact Or.inl hsrc
        · refine Or.inr ⟨g, rfl, hgenm, ?_⟩
          have hgenm2 : x ∈ globExt g.top "cpp" ++ globExt g.top "h" := hgenm
          rcases List.mem_append.mp hgenm2 with hcpp | hh
          · exact List.mem_of_mem_filter hcpp
          · exact List.mem_of_mem_filter hh
      · intro x hx hnot
        refine mem_stageFold_of_ne (matchedGenerated g) x env.src ?_ hx
        intro f hf hkey
        refine hnot g rfl ?_
        rw [hkey.1, hkey.2]
        exact List.mem_map_of_mem fkey hf
      · intro x hx
        exact key_surv_stageFold (matchedGenerated g) x env.src hx

/-- Concrete instantiation of `staging_frame`: a `blink.cn` source file —
its name matching no generated `*.cpp`/`*.h`, while `generated/` holds a
top-level `blink.cpp` and a subdirectory file `deep.h` — survives staging
with unchanged content. -/
theorem staging_frame_witness :
    (⟨"blink", "cn", 3, "keep"⟩ : FsFile) ∈
      (mainRun ⟨.completed 0 "" "", .completed 0 "" "",
        some ⟨[⟨"blink", "cpp", 7, "new"⟩], [⟨"deep", "h", 9, "sub"⟩]⟩,
        [⟨"blink", "cn", 3, "keep"⟩]⟩).srcAfter :=
  (staging_frame ⟨.completed 0 "" "", .completed 0 "" "",
      some ⟨[⟨"blink", "cpp", 7, "new"⟩], [⟨"deep", "h", 9, "sub"⟩]⟩,
      [⟨"blink", "cn", 3, "keep"⟩]⟩).2.1
    ⟨"blink", "cn", 3, "keep"⟩ (by decide)
    (by
      intro g hgg
      injection hgg with hgg
      subst hgg
      decide)

end BuildCnext
